import Mathlib

/-
  Verification of the TE-mapper core of StanX_tools.

  Shallow embedding of:
  - src/bin/stanex/te_mapper_utils/split_read.rs        (alignment shapes and boundary getters)
  - src/bin/stanex/te_mapper_utils/te_alignment.rs      (TE-side alignment builder, Result-based)
  - src/bin/stanex/te_mapper_utils/preprocess_select_reads.rs (TE-side builder used by the wired
    stanex selection pass; aborts on an unknown transposon name)
  - src/bin/stanex/te_mapper_utils/select_reads.rs and src/bin/sx/te_mapper_utils/select_reads.rs
    (selection passes, modelled sequentially)
  - src/bin/stanex/te_mapper_utils/genome_alignment.rs  (genome-side builder and the insertion
    assembly engine get_non_ref_tes / get_ref_tes)
  - src/bin/sx/sg_utils/coord_shift.rs                  (coordinate shift utility)

  Modelling conventions:
  - u64 values are modelled as Nat.  Subtraction is Nat (truncated) subtraction; in the code the
    only subtractions are `pos + m - 1` with a one-indexed SAM position (so the minuend is
    positive) and `normal_pos - total_to_subtract` where the accumulated total is bounded by the
    position, so no u64 wrap-around is reachable in the regimes the claims quantify over.
  - f64 parameters (min_te_length / max_te_length) are modelled as exact rationals; the Rust
    `as u64` conversion truncates toward zero and saturates, which f64AsU64 mirrors.
  - Regular expressions ^(\d+)S(\d+)M$ etc. are modelled by splitTwoRuns over the string's
    character list, with \d read as an ASCII decimal digit.
  - The concurrent selection passes are modelled as sequential folds over the record list; a
    process abort is an `Except.error` / `CreateResult.fatal` value, a per-record rejection is a
    skipped record.
-/

namespace StanX

/-- std::u64::MAX / 2, the sentinel used for the not-yet-seen side of an insertion accumulator. -/
def U64SENTINEL : Nat := (2 ^ 64 - 1) / 2

/-- Decimal value of a digit run, as produced by the u64 parse of a regex capture. -/
def digitsVal (l : List Char) : Nat :=
  l.foldl (fun acc c => acc * 10 + (c.toNat - '0'.toNat)) 0

/-- Model of the anchored two-run regular expressions such as ^(\d+)S(\d+)M$: the string must be
a nonempty digit run, the letter c1, a nonempty digit run, and the letter c2, with nothing else.
Returns the two captured numbers. -/
def splitTwoRuns (c1 c2 : Char) (s : String) : Option (Nat × Nat) :=
  let l := s.data
  let d1 := l.takeWhile Char.isDigit
  match l.dropWhile Char.isDigit with
  | x :: rest =>
    if x = c1 then
      let d2 := rest.takeWhile Char.isDigit
      match rest.dropWhile Char.isDigit with
      | [y] =>
        if y = c2 ∧ d1 ≠ [] ∧ d2 ≠ [] then some (digitsVal d1, digitsVal d2) else none
      | _ => none
    else none
  | [] => none

/-- Model of the anchored pure-match regular expression ^\d+M$. -/
def pureMatchRun (s : String) : Bool :=
  decide (s.data.takeWhile Char.isDigit ≠ []) && decide (s.data.dropWhile Char.isDigit = ['M'])

/-- split_read.rs: an aSbM shape; pos is the position of the first matching base. -/
structure SMAlignment where
  s : Nat
  m : Nat
  pos : Nat
  deriving DecidableEq, Repr

/-- split_read.rs: an aMbS shape; pos is the position of the first matching base. -/
structure MSAlignment where
  m : Nat
  s : Nat
  pos : Nat
  deriving DecidableEq, Repr

/-- split_read.rs: a pure-match genome-side shape carrying the TE-side split sizes. -/
structure MAlignment where
  old_s : Nat
  old_m : Nat
  is_start : Bool
  new_plus : Bool
  new_pos : Nat
  deriving DecidableEq, Repr

/-- SMAlignment::get_first_m. -/
def SMAlignment.get_first_m (a : SMAlignment) : Nat := a.pos

/-- MSAlignment::get_last_m. -/
def MSAlignment.get_last_m (a : MSAlignment) : Nat := a.pos + a.m - 1

/-- MAlignment::get_boundary_old_m. -/
def MAlignment.get_boundary_old_m (a : MAlignment) : Nat :=
  if a.new_plus then
    if a.is_start then a.new_pos + a.old_s else a.new_pos + a.old_m - 1
  else
    if a.is_start then a.new_pos + a.old_m - 1 else a.new_pos + a.old_s

/-- te_alignment.rs / split_read.rs: TE-side split-read shapes. -/
inductive SplitReadTE where
  | SM (a : SMAlignment)
  | MS (a : MSAlignment)
  deriving DecidableEq, Repr

/-- SplitReadTE::m. -/
def SplitReadTE.m : SplitReadTE → Nat
  | .SM a => a.m
  | .MS a => a.m

/-- SplitReadTE::s. -/
def SplitReadTE.s : SplitReadTE → Nat
  | .SM a => a.s
  | .MS a => a.s

/-- te_alignment.rs SplitReadTE::parse: try ^(\d+)S(\d+)M$ first, then ^(\d+)M(\d+)S$. -/
def SplitReadTE.parse (cigar : String) (pos : Nat) : Except String SplitReadTE :=
  match splitTwoRuns 'S' 'M' cigar with
  | some (sv, mv) => .ok (.SM ⟨sv, mv, pos⟩)
  | none =>
    match splitTwoRuns 'M' 'S' cigar with
    | some (mv, sv) => .ok (.MS ⟨mv, sv, pos⟩)
    | none => .error "CIGAR string is not SM or MS"

/-- split_read.rs SplitReadTE::parse (the Option-returning variant used by the preprocess
selection pass); same two patterns in the same order. -/
def SplitReadTE.parseOpt (cigar : String) (pos : Nat) : Option SplitReadTE :=
  match splitTwoRuns 'S' 'M' cigar with
  | some (sv, mv) => some (.SM ⟨sv, mv, pos⟩)
  | none =>
    match splitTwoRuns 'M' 'S' cigar with
    | some (mv, sv) => some (.MS ⟨mv, sv, pos⟩)
    | none => none

/-- genome_alignment.rs: genome-side split-read shapes. -/
inductive SplitReadGenome where
  | SM (a : SMAlignment)
  | MS (a : MSAlignment)
  | M (a : MAlignment)
  deriving DecidableEq, Repr

/-- genome_alignment.rs SplitReadGenome::parse: patterns tried in the order HM, MH, SM, MS, M;
hard clips are parsed as if they were soft clips. -/
def SplitReadGenome.parse (cigar : String) (old_m old_s : Nat) (is_start new_plus : Bool)
    (pos : Nat) : Except String SplitReadGenome :=
  match splitTwoRuns 'H' 'M' cigar with
  | some (h, mv) => .ok (.SM ⟨h, mv, pos⟩)
  | none =>
    match splitTwoRuns 'M' 'H' cigar with
    | some (mv, h) => .ok (.MS ⟨mv, h, pos⟩)
    | none =>
      match splitTwoRuns 'S' 'M' cigar with
      | some (sv, mv) => .ok (.SM ⟨sv, mv, pos⟩)
      | none =>
        match splitTwoRuns 'M' 'S' cigar with
        | some (mv, sv) => .ok (.MS ⟨mv, sv, pos⟩)
        | none =>
          if pureMatchRun cigar then .ok (.M ⟨old_s, old_m, is_start, new_plus, pos⟩)
          else .error "CIGAR string is not HM, MH, SM, MS, or M"

/-- The fields of a TE-aligned SAM record that the TE-side builder reads (QNAME, FLAG, RNAME,
POS, CIGAR, SEQ); FLAG and POS are carried already parsed as numbers. -/
structure TeRecord where
  qname : String
  flag : Nat
  rname : String
  pos : Nat
  cigar : String
  seq : String
  deriving DecidableEq, Repr

/-- SAM flag bit 4 clear means mapped. -/
def sam_is_mapped (flag : Nat) : Bool := flag &&& 4 == 0

/-- SAM flag bit 16 clear means a plus-strand alignment. -/
def sam_is_plus (flag : Nat) : Bool := flag &&& 16 == 0

/-- te_alignment.rs TeAlignment. -/
structure TeAlignment where
  qname : String
  rname : String
  m_size : Nat
  s_size : Nat
  is_sm : Bool
  is_start : Bool
  seq : String
  deriving DecidableEq, Repr

/-- te_alignment.rs TeAlignment::validate_cigar_string.  The transposon-length lookup happens
before the shape is inspected, and a missing name is a (recoverable) error value. -/
def validate_cigar_string (cigar : String) (pos : Nat) (rname : String)
    (transposon_lengths : String → Option Nat) : Except String SplitReadTE :=
  let split_read := SplitReadTE.parse cigar pos
  match transposon_lengths rname with
  | none => .error ("unable to find transposon " ++ rname ++ " in transposon list")
  | some transposon_length =>
    match split_read with
    | .error e => .error e
    | .ok (.SM sm_read) =>
      if sm_read.get_first_m = 1 then .ok (.SM sm_read)
      else .error "SM read does not align to start of transposon"
    | .ok (.MS ms_read) =>
      if ms_read.get_last_m = transposon_length then .ok (.MS ms_read)
      else .error "MS read does not align to end of transposon"

/-- te_alignment.rs TeAlignment::create. -/
def TeAlignment.create (r : TeRecord) (transposon_lengths : String → Option Nat) :
    Except String TeAlignment :=
  if !(sam_is_mapped r.flag) then .error "unmapped read"
  else
    match validate_cigar_string r.cigar r.pos r.rname transposon_lengths with
    | .error e => .error e
    | .ok split_read =>
      match split_read with
      | .SM _ => .ok ⟨r.qname, r.rname, split_read.m, split_read.s, true, true, r.seq⟩
      | .MS _ => .ok ⟨r.qname, r.rname, split_read.m, split_read.s, false, false, r.seq⟩

/-- preprocess_select_reads.rs TeAlignment::create.  `Except.error` models the process abort on
a transposon name that is missing from the table; `Except.ok none` models a per-record skip. -/
def TeAlignment.createPre (r : TeRecord) (transposons : String → Option Nat) :
    Except String (Option TeAlignment) :=
  if !(sam_is_mapped r.flag) then .ok none
  else
    match transposons r.rname with
    | some transposon_length =>
      match SplitReadTE.parseOpt r.cigar r.pos with
      | none => .ok none
      | some (.SM sm_read) =>
        if sm_read.get_first_m = 1 then
          .ok (some ⟨r.qname, r.rname, sm_read.m, sm_read.s, true, true, r.seq⟩)
        else .ok none
      | some (.MS ms_read) =>
        if ms_read.get_last_m = transposon_length then
          .ok (some ⟨r.qname, r.rname, ms_read.m, ms_read.s, false, false, r.seq⟩)
        else .ok none
    | none => .error "unable to find transposon in transposon list"

/-- sx select_reads.rs worker loop: every `Err` from the Result-based TE-side builder makes the
worker `continue` with the next record, so an erroneous record is dropped and the pass goes on. -/
def sx_select_pass (transposons : String → Option Nat) : List TeRecord → List TeAlignment
  | [] => []
  | r :: rest =>
    match TeAlignment.create r transposons with
    | .error _ => sx_select_pass transposons rest
    | .ok a => a :: sx_select_pass transposons rest

/-- stanex select_reads.rs worker loop over the preprocess builder: a `None` record is skipped,
a fatal record aborts the whole pass. -/
def preprocess_select_pass (transposons : String → Option Nat) :
    List TeRecord → Except String (List TeAlignment)
  | [] => .ok []
  | r :: rest =>
    match TeAlignment.createPre r transposons with
    | .error e => .error e
    | .ok none => preprocess_select_pass transposons rest
    | .ok (some a) =>
      match preprocess_select_pass transposons rest with
      | .error e => .error e
      | .ok l => .ok (a :: l)

/-- The fields of a genome-aligned SAM record that the genome-side builder reads. -/
structure GenomeRecordFields where
  flag : Nat
  rname : String
  pos : Nat
  cigar : String
  deriving DecidableEq, Repr

/-- The TE-side metadata embedded (pipe-delimited) in a genome-aligned record's read name. -/
structure TeMetaFields where
  te_name : String
  old_m : Nat
  old_s : Nat
  old_sm : String
  start_of_te : String
  deriving DecidableEq, Repr

/-- genome_alignment.rs GenomeAlignment. -/
structure GenomeAlignment where
  te_name : String
  old_m : Nat
  old_s : Nat
  is_sm_te : Bool
  is_start : Bool
  new_plus : Bool
  chrom : String
  split_read_genome : SplitReadGenome
  deriving DecidableEq, Repr

/-- GenomeAlignment::validate_chrom. -/
def validate_chrom (chrom : String) (chroms : List String) : Bool :=
  chroms.any (fun x => chrom == x)

/-- Outcome of a fallible constructor in a process that can abort: `fatal` models a process
abort, `skip` models a recoverable per-record rejection. -/
inductive CreateResult (α : Type) where
  | fatal (msg : String)
  | skip (msg : String)
  | ok (val : α)
  deriving DecidableEq, Repr

/-- genome_alignment.rs GenomeAlignment::create.  Checks happen in source order: unmapped
(skip), TE-side metadata integrity (fatal), chromosome allow-list (skip), CIGAR shape (skip). -/
def GenomeAlignment.create (g : GenomeRecordFields) (t : TeMetaFields) (chroms : List String) :
    CreateResult (String × GenomeAlignment) :=
  if !(sam_is_mapped g.flag) then .skip "unmapped read"
  else
    let is_sm_te := t.old_sm == "SM"
    let is_start := t.start_of_te == "start"
    if is_sm_te != is_start then
      let sm_str := if is_sm_te then "SM" else "MS"
      let start_str := if is_start then "start" else "end"
      .fatal ("TE mapper error: TE alignment was " ++ sm_str ++ " and aligned to the " ++
        start_str ++ " of the transposon")
    else if !(validate_chrom g.rname chroms) then .skip "invalid chromosome"
    else
      let is_plus := sam_is_plus g.flag
      match SplitReadGenome.parse g.cigar t.old_m t.old_s is_start is_plus g.pos with
      | .error e => .skip e
      | .ok split_read =>
        .ok (g.rname, ⟨t.te_name, t.old_m, t.old_s, is_sm_te, is_start, is_plus, g.rname,
          split_read⟩)

/-- GenomeAlignment::get_boundary_nt. -/
def GenomeAlignment.get_boundary_nt (ga : GenomeAlignment) : Nat :=
  match ga.split_read_genome with
  | .MS alignment => alignment.get_last_m
  | .SM alignment => alignment.get_first_m
  | .M alignment => alignment.get_boundary_old_m

/-- GenomeAlignment::upstream. -/
def GenomeAlignment.upstream (ga : GenomeAlignment) : Bool :=
  match ga.split_read_genome with
  | .MS _ => true
  | .SM _ => false
  | .M _ => !(ga.is_start ^^ ga.new_plus)

/-- output_data_types / preprocess_alignments: insertion orientation. -/
inductive Orientation where
  | PlusPlus
  | PlusMinus
  deriving DecidableEq, Repr

/-- A non-reference insertion accumulator / call. -/
structure NonRefTE where
  name : String
  chrom : String
  upstream_pos : Nat
  downstream_pos : Nat
  orientation : Orientation
  num_upstream_reads : Nat
  num_downstream_reads : Nat
  deriving DecidableEq, Repr

/-- A reference insertion accumulator / call. -/
structure RefTE where
  name : String
  chrom : String
  upstream_pos : Nat
  downstream_pos : Nat
  orientation : Orientation
  num_upstream_reads : Nat
  num_downstream_reads : Nat
  deriving DecidableEq, Repr

/-- Replace the last element of a list (models mutating through Vec::last_mut). -/
def setLast {α : Type} : List α → α → List α
  | [], _ => []
  | [_], b => [b]
  | a :: x :: rest, b => a :: setLast (x :: rest) b

/-- Orientation assigned to an upstream-side read in get_non_ref_tes: SM gives +/+. -/
def nonRefUpOrientation (a : GenomeAlignment) : Orientation :=
  if a.is_sm_te then .PlusPlus else .PlusMinus

/-- Orientation assigned to a downstream-side read in get_non_ref_tes: SM gives plus-minus. -/
def nonRefDownOrientation (a : GenomeAlignment) : Orientation :=
  if a.is_sm_te then .PlusMinus else .PlusPlus

/-- Orientation assigned to a read in get_ref_tes, from the genome-side strand. -/
def refOrientation (a : GenomeAlignment) : Orientation :=
  if a.new_plus then .PlusPlus else .PlusMinus

/-- The fresh accumulator that get_non_ref_tes pushes for an unmatched upstream-side read. -/
def newNonRefUp (a : GenomeAlignment) (chrom_name : String) : NonRefTE :=
  ⟨a.te_name, chrom_name, a.get_boundary_nt, U64SENTINEL, nonRefUpOrientation a, 1, 0⟩

/-- The fresh accumulator that get_non_ref_tes pushes for an unmatched downstream-side read. -/
def newNonRefDown (a : GenomeAlignment) (chrom_name : String) : NonRefTE :=
  ⟨a.te_name, chrom_name, U64SENTINEL, a.get_boundary_nt, nonRefDownOrientation a, 0, 1⟩

/-- The body of the get_non_ref_tes traversal for one alignment: an upstream-side read merges
into the last accumulator on an exact upstream match or inside the TSD window after the
accumulator's downstream position; a downstream-side read merges only on an exact downstream
match; everything else pushes a new accumulator. -/
def nonRefProcess (min_tsd_length max_tsd_length : Nat) (chrom_name : String)
    (tes : List NonRefTE) (a : GenomeAlignment) : List NonRefTE :=
  let position := a.get_boundary_nt
  if a.upstream then
    let orientation := nonRefUpOrientation a
    match tes.getLast? with
    | none => tes ++ [newNonRefUp a chrom_name]
    | some insertion =>
      if orientation = insertion.orientation then
        if position = insertion.upstream_pos then
          setLast tes { insertion with num_upstream_reads := insertion.num_upstream_reads + 1 }
        else if insertion.downstream_pos + min_tsd_length ≤ position ∧
            position ≤ insertion.downstream_pos + max_tsd_length then
          setLast tes
            { insertion with
              upstream_pos := position
              num_upstream_reads := insertion.num_upstream_reads + 1 }
        else tes ++ [newNonRefUp a chrom_name]
      else tes ++ [newNonRefUp a chrom_name]
  else
    let orientation := nonRefDownOrientation a
    match tes.getLast? with
    | none => tes ++ [newNonRefDown a chrom_name]
    | some insertion =>
      if orientation = insertion.orientation then
        if position = insertion.downstream_pos then
          setLast tes
            { insertion with num_downstream_reads := insertion.num_downstream_reads + 1 }
        else tes ++ [newNonRefDown a chrom_name]
      else tes ++ [newNonRefDown a chrom_name]

/-- Ascending order on non-reference calls by upstream position (the final sort_by). -/
def nonRefUpstreamLe (first second : NonRefTE) : Prop :=
  first.upstream_pos ≤ second.upstream_pos

instance : DecidableRel nonRefUpstreamLe :=
  fun f s => Nat.decLe f.upstream_pos s.upstream_pos

instance : IsTotal NonRefTE nonRefUpstreamLe :=
  ⟨fun f s => Nat.le_total f.upstream_pos s.upstream_pos⟩

instance : IsTrans NonRefTE nonRefUpstreamLe :=
  ⟨fun _ _ _ => Nat.le_trans⟩

/-- genome_alignment.rs GenomeAlignment::get_non_ref_tes over the per-chromosome alignment
stream in the order it is drained from the heap: accumulate, then drop one-sided insertions,
then sort by upstream position. -/
def get_non_ref_tes (min_tsd_length max_tsd_length : Nat) (chrom_name : String)
    (alignments : List GenomeAlignment) : List NonRefTE :=
  let tes := alignments.foldl (nonRefProcess min_tsd_length max_tsd_length chrom_name) []
  let filtered_tes :=
    tes.filter (fun i => 0 < i.num_upstream_reads && 0 < i.num_downstream_reads)
  List.insertionSort nonRefUpstreamLe filtered_tes

/-- Rust `as u64` on a (rational-modelled) f64: truncate toward zero, saturating at the type
bounds. -/
def f64AsU64 (q : ℚ) : Nat :=
  if q < 0 then 0 else min (Int.toNat ⌊q⌋) (2 ^ 64 - 1)

/-- The fresh accumulator that get_ref_tes pushes for an unmatched upstream-side read. -/
def newRefUp (a : GenomeAlignment) (chrom_name : String) : RefTE :=
  ⟨a.te_name, chrom_name, a.get_boundary_nt, U64SENTINEL, refOrientation a, 1, 0⟩

/-- The fresh accumulator that get_ref_tes pushes for an unmatched downstream-side read. -/
def newRefDown (a : GenomeAlignment) (chrom_name : String) : RefTE :=
  ⟨a.te_name, chrom_name, U64SENTINEL, a.get_boundary_nt, refOrientation a, 0, 1⟩

/-- The body of the get_ref_tes traversal for one alignment, with the current transposon's
known length already fixed for the surrounding name group: an upstream-side read merges only on
an exact upstream match; a downstream-side read merges on an exact downstream match or inside
the length-proportional window after the accumulator's upstream position. -/
def refProcess (min_te_length max_te_length : ℚ) (cur_te_length : ℚ) (chrom_name : String)
    (tes : List RefTE) (a : GenomeAlignment) : List RefTE :=
  let position := a.get_boundary_nt
  let orientation := refOrientation a
  if a.upstream then
    match tes.getLast? with
    | none => tes ++ [newRefUp a chrom_name]
    | some insertion =>
      if orientation = insertion.orientation then
        if position = insertion.upstream_pos then
          setLast tes { insertion with num_upstream_reads := insertion.num_upstream_reads + 1 }
        else tes ++ [newRefUp a chrom_name]
      else tes ++ [newRefUp a chrom_name]
  else
    match tes.getLast? with
    | none => tes ++ [newRefDown a chrom_name]
    | some insertion =>
      if orientation = insertion.orientation then
        if position = insertion.downstream_pos then
          setLast tes
            { insertion with num_downstream_reads := insertion.num_downstream_reads + 1 }
        else if insertion.upstream_pos + f64AsU64 (min_te_length * cur_te_length) ≤ position ∧
            position ≤ insertion.upstream_pos + f64AsU64 (max_te_length * cur_te_length) then
          setLast tes
            { insertion with
              downstream_pos := position
              num_downstream_reads := insertion.num_downstream_reads + 1 }
        else tes ++ [newRefDown a chrom_name]
      else tes ++ [newRefDown a chrom_name]

/-- Ascending order on reference calls by upstream position (the final sort_by). -/
def refUpstreamLe (first second : RefTE) : Prop :=
  first.upstream_pos ≤ second.upstream_pos

instance : DecidableRel refUpstreamLe :=
  fun f s => Nat.decLe f.upstream_pos s.upstream_pos

instance : IsTotal RefTE refUpstreamLe :=
  ⟨fun f s => Nat.le_total f.upstream_pos s.upstream_pos⟩

instance : IsTrans RefTE refUpstreamLe :=
  ⟨fun _ _ _ => Nat.le_trans⟩

/-- The outer loop of get_ref_tes over the grouped (3D) alignment vector: each name group fixes
the current transposon length by looking up the group's first alignment; `none` models the
aborts on an empty group or a transposon name missing from the length table. -/
def refAssemble (min_te_length max_te_length : ℚ) (all_te_lengths : String → Option Nat)
    (chrom_name : String) :
    List (List (List GenomeAlignment)) → List RefTE → Option (List RefTE)
  | [], tes => some tes
  | group :: rest, tes =>
    match group with
    | (first :: tail) :: positions =>
      match all_te_lengths first.te_name with
      | none => none
      | some len =>
        refAssemble min_te_length max_te_length all_te_lengths chrom_name rest
          (((first :: tail) :: positions).flatten.foldl
            (refProcess min_te_length max_te_length (len : ℚ) chrom_name) tes)
    | _ => none

/-- genome_alignment.rs GenomeAlignment::get_ref_tes over the grouped per-chromosome stream:
accumulate per name group, then drop one-sided insertions, then sort by upstream position. -/
def get_ref_tes (min_te_length max_te_length : ℚ) (all_te_lengths : String → Option Nat)
    (chrom_name : String) (alignment_vector : List (List (List GenomeAlignment))) :
    Option (List RefTE) :=
  match refAssemble min_te_length max_te_length all_te_lengths chrom_name alignment_vector []
    with
  | none => none
  | some tes =>
    some (List.insertionSort refUpstreamLe
      (tes.filter (fun i => 0 < i.num_upstream_reads && 0 < i.num_downstream_reads)))

/-- iloc.rs ILoc: a reference transposon span. -/
structure ILoc where
  chrom : String
  upstream_pos : Nat
  downstream_pos : Nat
  deriving DecidableEq, Repr

/-- ILoc::length (fully-closed span). -/
def ILoc.length (i : ILoc) : Nat := i.downstream_pos - i.upstream_pos + 1

/-- coord_shift.rs SGCoords. -/
inductive SGCoords where
  | OutsideTransposon (p : Nat)
  | WithinTransposon (u d : Nat)
  deriving DecidableEq, Repr

/-- coord_shift.rs UniversalCoords. -/
structure UniversalCoords where
  chrom : String
  normal_ref : Nat
  sg_ref : SGCoords
  deriving DecidableEq, Repr

/-- The loop of UniversalCoords::new_from_normal with its running total_to_subtract; the branch
for a downstream transposon models the `break` out of the whole loop. -/
def newFromNormalGo (chrom : String) (normal_pos : Nat) :
    List ILoc → Nat → UniversalCoords
  | [], total_to_subtract =>
    ⟨chrom, normal_pos, .OutsideTransposon (normal_pos - total_to_subtract)⟩
  | iloc :: rest, total_to_subtract =>
    if iloc.chrom == chrom then
      if iloc.downstream_pos < normal_pos then
        newFromNormalGo chrom normal_pos rest (total_to_subtract + iloc.length)
      else if iloc.upstream_pos < normal_pos then
        ⟨chrom, normal_pos, .WithinTransposon iloc.upstream_pos iloc.downstream_pos⟩
      else ⟨chrom, normal_pos, .OutsideTransposon (normal_pos - total_to_subtract)⟩
    else newFromNormalGo chrom normal_pos rest total_to_subtract

/-- coord_shift.rs UniversalCoords::new_from_normal (reference to synthetic). -/
def UniversalCoords.new_from_normal (chrom : String) (normal_pos : Nat)
    (transposons : List ILoc) : UniversalCoords :=
  newFromNormalGo chrom normal_pos transposons 0

/-- The loop of UniversalCoords::new_from_sg with its running normal_nt_pos; the branch for a
transposon that is not upstream of the running position models the early return. -/
def newFromSgGo (chrom : String) (sg_pos : Nat) : List ILoc → Nat → UniversalCoords
  | [], normal_nt_pos => ⟨chrom, normal_nt_pos, .OutsideTransposon sg_pos⟩
  | iloc :: rest, normal_nt_pos =>
    if iloc.chrom == chrom then
      if iloc.downstream_pos < normal_nt_pos then
        newFromSgGo chrom sg_pos rest (normal_nt_pos + iloc.length)
      else ⟨chrom, normal_nt_pos, .OutsideTransposon sg_pos⟩
    else newFromSgGo chrom sg_pos rest normal_nt_pos

/-- coord_shift.rs UniversalCoords::new_from_sg (synthetic back to reference). -/
def UniversalCoords.new_from_sg (chrom : String) (sg_pos : Nat) (transposons : List ILoc) :
    UniversalCoords :=
  newFromSgGo chrom sg_pos transposons sg_pos

/-- Does an Except value hold a success? (Used to state acceptance of a builder.) -/
def exceptIsOk {ε α : Type} : Except ε α → Bool
  | .ok _ => true
  | .error _ => false

/-- Is a CreateResult a process abort? -/
def CreateResult.isFatal {α : Type} : CreateResult α → Bool
  | .fatal _ => true
  | _ => false

/-! Helper lemmas shared by the claim theorems. -/

@[simp]
theorem data_mk (l : List Char) : (String.mk l).data = l := rfl

theorem length_setLast {α : Type} (l : List α) (b : α) : (setLast l b).length = l.length := by
  induction l with
  | nil => rfl
  | cons a rest ih =>
    cases rest with
    | nil => rfl
    | cons x xs => simpa [setLast] using ih

theorem setLast_eq_dropLast {α : Type} (l : List α) (b : α) (h : l ≠ []) :
    setLast l b = l.dropLast ++ [b] := by
  induction l with
  | nil => exact absurd rfl h
  | cons a rest ih =>
    cases rest with
    | nil => rfl
    | cons x xs => simp [setLast, ih]

theorem getLast?_setLast {α : Type} (l : List α) (b : α) (h : l ≠ []) :
    (setLast l b).getLast? = some b := by
  rw [setLast_eq_dropLast l b h]
  simp

theorem ne_nil_of_getLast? {α : Type} {l : List α} {b : α} (h : l.getLast? = some b) :
    l ≠ [] := by
  intro he
  subst he
  simp at h

theorem takeWhile_append_all {p : Char → Bool} (l1 : List Char) (x : Char) (l2 : List Char)
    (h1 : ∀ c ∈ l1, p c = true) (hx : p x = false) :
    (l1 ++ x :: l2).takeWhile p = l1 ∧ (l1 ++ x :: l2).dropWhile p = x :: l2 := by
  induction l1 with
  | nil => simp [List.takeWhile, List.dropWhile, hx]
  | cons a as ih =>
    have ha : p a = true := h1 a (by simp)
    have ih2 := ih (fun c hc => h1 c (by simp [hc]))
    constructor
    · simp [List.takeWhile_cons, ha, ih2.1]
    · simp [List.dropWhile_cons, ha, ih2.2]

theorem splitTwoRuns_ok (c1 c2 : Char) (d1 d2 : List Char)
    (hc1 : c1.isDigit = false) (hc2 : c2.isDigit = false)
    (h1 : d1 ≠ []) (h1d : ∀ c ∈ d1, c.isDigit = true)
    (h2 : d2 ≠ []) (h2d : ∀ c ∈ d2, c.isDigit = true) :
    splitTwoRuns c1 c2 (String.mk (d1 ++ c1 :: (d2 ++ [c2]))) =
      some (digitsVal d1, digitsVal d2) := by
  have ht1 := takeWhile_append_all d1 c1 (d2 ++ [c2]) h1d hc1
  have ht2 := takeWhile_append_all d2 c2 [] h2d hc2
  simp only [splitTwoRuns, data_mk, ht1.1, ht1.2]
  simp [ht2.1, ht2.2, h1, h2]

theorem splitTwoRuns_head_ne (c1 c2 x : Char) (d1 l2 : List Char)
    (hx : x.isDigit = false) (hne : x ≠ c1) (h1d : ∀ c ∈ d1, c.isDigit = true) :
    splitTwoRuns c1 c2 (String.mk (d1 ++ x :: l2)) = none := by
  have ht := takeWhile_append_all d1 x l2 h1d hx
  simp only [splitTwoRuns, data_mk, ht.1, ht.2]
  simp [hne]

theorem splitTwoRuns_tail_ne (c1 c2 y : Char) (d1 d2 : List Char)
    (hc1 : c1.isDigit = false) (hy : y.isDigit = false) (hne : y ≠ c2)
    (h1d : ∀ c ∈ d1, c.isDigit = true) (h2d : ∀ c ∈ d2, c.isDigit = true) :
    splitTwoRuns c1 c2 (String.mk (d1 ++ c1 :: (d2 ++ [y]))) = none := by
  have ht1 := takeWhile_append_all d1 c1 (d2 ++ [y]) h1d hc1
  have ht2 := takeWhile_append_all d2 y [] h2d hy
  simp only [splitTwoRuns, data_mk, ht1.1, ht1.2]
  simp [ht2.1, ht2.2, hne]

theorem splitTwoRuns_short (c1 c2 : Char) (d1 : List Char)
    (hc1 : c1.isDigit = false) (h1d : ∀ c ∈ d1, c.isDigit = true) :
    splitTwoRuns c1 c2 (String.mk (d1 ++ [c1])) = none := by
  have ht := takeWhile_append_all d1 c1 [] h1d hc1
  simp only [splitTwoRuns, data_mk, ht.1, ht.2]
  simp

theorem pureMatchRun_true (d1 : List Char) (h1 : d1 ≠ [])
    (h1d : ∀ c ∈ d1, c.isDigit = true) :
    pureMatchRun (String.mk (d1 ++ ['M'])) = true := by
  have ht := takeWhile_append_all d1 'M' [] h1d (by decide)
  simp [pureMatchRun, ht.1, ht.2, h1]

theorem pureMatchRun_false (x : Char) (d1 l2 : List Char)
    (hx : x.isDigit = false) (hne : l2 ≠ []) (h1d : ∀ c ∈ d1, c.isDigit = true) :
    pureMatchRun (String.mk (d1 ++ x :: l2)) = false := by
  have ht := takeWhile_append_all d1 x l2 h1d hx
  simp [pureMatchRun, ht.1, ht.2, hne]

theorem splitTwoRuns_first_char {c1 c2 c1' c2' : Char} {s : String} {p : Nat × Nat}
    (h : splitTwoRuns c1 c2 s = some p) (hne : c1 ≠ c1') :
    splitTwoRuns c1' c2' s = none := by
  unfold splitTwoRuns at h ⊢
  cases hd : s.data.dropWhile Char.isDigit with
  | nil => simp [hd] at h
  | cons x rest =>
    simp only [hd] at h ⊢
    by_cases hx : x = c1
    · subst hx
      exact if_neg hne
    · rw [if_neg hx] at h
      cases h

theorem f64AsU64_eq (q : ℚ) (h0 : 0 ≤ q) (hb : ⌊q⌋ ≤ 2 ^ 64 - 1) :
    f64AsU64 q = (⌊q⌋).toNat := by
  have hlt : ¬ q < 0 := not_lt.mpr h0
  have hf : (0 : ℤ) ≤ ⌊q⌋ := Int.floor_nonneg.mpr h0
  have h1 : (⌊q⌋).toNat ≤ 2 ^ 64 - 1 := by omega
  simp only [f64AsU64, if_neg hlt]
  exact min_eq_left h1

theorem nonRefProcess_up_reduce (minT maxT : Nat) (chrom : String) (a : GenomeAlignment)
    (tes : List NonRefTE) (insertion : NonRefTE) (hup : a.upstream = true)
    (hlast : tes.getLast? = some insertion)
    (hor : nonRefUpOrientation a = insertion.orientation) :
    nonRefProcess minT maxT chrom tes a =
      if a.get_boundary_nt = insertion.upstream_pos then
        setLast tes { insertion with num_upstream_reads := insertion.num_upstream_reads + 1 }
      else if insertion.downstream_pos + minT ≤ a.get_boundary_nt ∧
          a.get_boundary_nt ≤ insertion.downstream_pos + maxT then
        setLast tes
          { insertion with
            upstream_pos := a.get_boundary_nt
            num_upstream_reads := insertion.num_upstream_reads + 1 }
      else tes ++ [newNonRefUp a chrom] := by
  simp [nonRefProcess, hup, hlast, hor]

theorem nonRefProcess_down_reduce (minT maxT : Nat) (chrom : String) (a : GenomeAlignment)
    (tes : List NonRefTE) (insertion : NonRefTE) (hup : a.upstream = false)
    (hlast : tes.getLast? = some insertion)
    (hor : nonRefDownOrientation a = insertion.orientation) :
    nonRefProcess minT maxT chrom tes a =
      if a.get_boundary_nt = insertion.downstream_pos then
        setLast tes
          { insertion with num_downstream_reads := insertion.num_downstream_reads + 1 }
      else tes ++ [newNonRefDown a chrom] := by
  simp [nonRefProcess, hup, hlast, hor]

theorem nonRefProcess_up_mismatch (minT maxT : Nat) (chrom : String) (a : GenomeAlignment)
    (tes : List NonRefTE) (insertion : NonRefTE) (hup : a.upstream = true)
    (hlast : tes.getLast? = some insertion)
    (hor : nonRefUpOrientation a ≠ insertion.orientation) :
    nonRefProcess minT maxT chrom tes a = tes ++ [newNonRefUp a chrom] := by
  simp [nonRefProcess, hup, hlast, hor]

theorem nonRefProcess_down_mismatch (minT maxT : Nat) (chrom : String) (a : GenomeAlignment)
    (tes : List NonRefTE) (insertion : NonRefTE) (hup : a.upstream = false)
    (hlast : tes.getLast? = some insertion)
    (hor : nonRefDownOrientation a ≠ insertion.orientation) :
    nonRefProcess minT maxT chrom tes a = tes ++ [newNonRefDown a chrom] := by
  simp [nonRefProcess, hup, hlast, hor]

theorem refProcess_up_reduce (minTe maxTe curL : ℚ) (chrom : String) (a : GenomeAlignment)
    (tes : List RefTE) (insertion : RefTE) (hup : a.upstream = true)
    (hlast : tes.getLast? = some insertion) (hor : refOrientation a = insertion.orientation) :
    refProcess minTe maxTe curL chrom tes a =
      if a.get_boundary_nt = insertion.upstream_pos then
        setLast tes { insertion with num_upstream_reads := insertion.num_upstream_reads + 1 }
      else tes ++ [newRefUp a chrom] := by
  simp [refProcess, hup, hlast, hor]

theorem refProcess_down_reduce (minTe maxTe curL : ℚ) (chrom : String) (a : GenomeAlignment)
    (tes : List RefTE) (insertion : RefTE) (hup : a.upstream = false)
    (hlast : tes.getLast? = some insertion) (hor : refOrientation a = insertion.orientation) :
    refProcess minTe maxTe curL chrom tes a =
      if a.get_boundary_nt = insertion.downstream_pos then
        setLast tes
          { insertion with num_downstream_reads := insertion.num_downstream_reads + 1 }
      else if insertion.upstream_pos + f64AsU64 (minTe * curL) ≤ a.get_boundary_nt ∧
          a.get_boundary_nt ≤ insertion.upstream_pos + f64AsU64 (maxTe * curL) then
        setLast tes
          { insertion with
            downstream_pos := a.get_boundary_nt
            num_downstream_reads := insertion.num_downstream_reads + 1 }
      else tes ++ [newRefDown a chrom] := by
  simp [refProcess, hup, hlast, hor]

/-! Claim theorems. -/

/-- Claim C4 (code bug witness): the coordinate-shift round trip fails on the code.  With the
single reference transposon span 1000..1999 on chromosome 2L, position 2500 is strictly outside
every span and maps to synthetic coordinate 1500, but mapping 1500 back through new_from_sg
returns 1500, not 2500: the loop compares the span's downstream end against the running
position before the span's length has been re-added. -/
theorem c4_coord_roundtrip_failing_input :
    UniversalCoords.new_from_normal "2L" 2500 [⟨"2L", 1000, 1999⟩] =
      ⟨"2L", 2500, .OutsideTransposon 1500⟩
    ∧ UniversalCoords.new_from_sg "2L" 1500 [⟨"2L", 1000, 1999⟩] =
      ⟨"2L", 1500, .OutsideTransposon 1500⟩
    ∧ (1500 : Nat) ≠ 2500 := by
  exact ⟨rfl, rfl, by decide⟩

/-- Claim C6: the boundary nucleotide of a genome alignment is pos for an SM shape,
pos + m - 1 for an MS shape, and for an M shape new_pos + old_s on (plus, start) or
(minus, end) and new_pos + old_m - 1 on (plus, end) or (minus, start); is_upstream is true for
MS shapes, false for SM shapes, and for M shapes exactly when is_start XOR strand is false. -/
theorem c6_boundary_and_upstream (ga : GenomeAlignment) :
    (∀ sm, ga.split_read_genome = .SM sm →
      ga.get_boundary_nt = sm.pos ∧ ga.upstream = false)
    ∧ (∀ ms, ga.split_read_genome = .MS ms →
      ga.get_boundary_nt = ms.pos + ms.m - 1 ∧ ga.upstream = true)
    ∧ (∀ ma, ga.split_read_genome = .M ma →
      (((ma.new_plus = true ∧ ma.is_start = true) ∨
          (ma.new_plus = false ∧ ma.is_start = false) →
        ga.get_boundary_nt = ma.new_pos + ma.old_s)
      ∧ ((ma.new_plus = true ∧ ma.is_start = false) ∨
          (ma.new_plus = false ∧ ma.is_start = true) →
        ga.get_boundary_nt = ma.new_pos + ma.old_m - 1)
      ∧ (ga.upstream = true ↔ (ga.is_start ^^ ga.new_plus) = false))) := by
  refine ⟨?_, ?_, ?_⟩
  · rintro sm h
    simp [GenomeAlignment.get_boundary_nt, GenomeAlignment.upstream, h,
      SMAlignment.get_first_m]
  · rintro ms h
    simp [GenomeAlignment.get_boundary_nt, GenomeAlignment.upstream, h,
      MSAlignment.get_last_m]
  · rintro ma h
    refine ⟨?_, ?_, ?_⟩
    · rintro (⟨hp, hs⟩ | ⟨hp, hs⟩) <;>
        simp [GenomeAlignment.get_boundary_nt, h, MAlignment.get_boundary_old_m, hp, hs]
    · rintro (⟨hp, hs⟩ | ⟨hp, hs⟩) <;>
        simp [GenomeAlignment.get_boundary_nt, h, MAlignment.get_boundary_old_m, hp, hs]
    · cases hstart : ga.is_start <;> cases hplus : ga.new_plus <;>
        simp [GenomeAlignment.upstream, h, hstart, hplus]

/-- Witness for C6 at a concrete MS-shaped genome alignment. -/
theorem c6_boundary_and_upstream_witness :
    GenomeAlignment.get_boundary_nt
        ⟨"roo", 140, 10, false, false, true, "2L", .MS ⟨140, 10, 100⟩⟩ = 239
    ∧ GenomeAlignment.upstream
        ⟨"roo", 140, 10, false, false, true, "2L", .MS ⟨140, 10, 100⟩⟩ = true := by
  have h := (c6_boundary_and_upstream
      ⟨"roo", 140, 10, false, false, true, "2L", .MS ⟨140, 10, 100⟩⟩).2.1 ⟨140, 10, 100⟩ rfl
  exact h

/-- Claim C9: in the genome-side builder, a mapped record whose embedded TE-side metadata has
is_sm_te disagreeing with is_start aborts the run, while an unmapped record, or a mapped and
metadata-consistent record on a chromosome outside the allow-list, is only rejected. -/
theorem c9_genome_builder_error_policy (g : GenomeRecordFields) (t : TeMetaFields)
    (chroms : List String) :
    (sam_is_mapped g.flag = false →
      GenomeAlignment.create g t chroms = .skip "unmapped read")
    ∧ (sam_is_mapped g.flag = true → (t.old_sm == "SM") ≠ (t.start_of_te == "start") →
      ∃ m, GenomeAlignment.create g t chroms = .fatal m)
    ∧ (sam_is_mapped g.flag = true → (t.old_sm == "SM") = (t.start_of_te == "start") →
      validate_chrom g.rname chroms = false →
      GenomeAlignment.create g t chroms = .skip "invalid chromosome") := by
  refine ⟨?_, ?_, ?_⟩
  · intro hm
    simp [GenomeAlignment.create, hm]
  · intro hm hne
    have hb : ((t.old_sm == "SM") != (t.start_of_te == "start")) = true := by
      cases h1 : (t.old_sm == "SM") <;> cases h2 : (t.start_of_te == "start") <;> simp_all
    have hc : GenomeAlignment.create g t chroms =
        .fatal ("TE mapper error: TE alignment was " ++
          (if (t.old_sm == "SM") then "SM" else "MS") ++ " and aligned to the " ++
          (if (t.start_of_te == "start") then "start" else "end") ++ " of the transposon") := by
      simp [GenomeAlignment.create, hm, hb]
    exact ⟨_, hc⟩
  · intro hm heq hch
    have hb : ((t.old_sm == "SM") != (t.start_of_te == "start")) = false := by
      cases h1 : (t.old_sm == "SM") <;> cases h2 : (t.start_of_te == "start") <;> simp_all
    simp [GenomeAlignment.create, hm, hb, hch]

/-- Witness for C9 at concrete records: a mismatching mapped record is fatal, an unmapped
record and an off-list chromosome are per-record skips. -/
theorem c9_genome_builder_error_policy_witness :
    (GenomeAlignment.create ⟨0, "2L", 500, "100M"⟩ ⟨"roo", 140, 10, "SM", "end"⟩
      ["2L"]).isFatal = true
    ∧ GenomeAlignment.create ⟨4, "2L", 500, "100M"⟩ ⟨"roo", 140, 10, "SM", "start"⟩
      ["2L"] = .skip "unmapped read"
    ∧ GenomeAlignment.create ⟨0, "4X", 500, "100M"⟩ ⟨"roo", 140, 10, "SM", "start"⟩
      ["2L"] = .skip "invalid chromosome" := by
  refine ⟨?_, ?_, ?_⟩
  · obtain ⟨m, hm⟩ := (c9_genome_builder_error_policy ⟨0, "2L", 500, "100M"⟩
      ⟨"roo", 140, 10, "SM", "end"⟩ ["2L"]).2.1 (by decide) (by decide)
    rw [hm]
    rfl
  · exact (c9_genome_builder_error_policy ⟨4, "2L", 500, "100M"⟩
      ⟨"roo", 140, 10, "SM", "start"⟩ ["2L"]).1 (by decide)
  · exact (c9_genome_builder_error_policy ⟨0, "4X", 500, "100M"⟩
      ⟨"roo", 140, 10, "SM", "start"⟩ ["2L"]).2.2 (by decide) (by decide) (by decide)

/-- Claim C1: in get_non_ref_tes, an upstream-side read whose orientation matches the current
accumulator is merged (the accumulator list does not grow) iff its boundary equals the
accumulator's upstream_pos (incrementing the upstream count) or lies in the closed window
from downstream_pos + min_tsd_length to downstream_pos + max_tsd_length (updating upstream_pos
and incrementing the count); a downstream-side read merges only on an exact downstream_pos
match; in every other case a new accumulator is pushed. -/
theorem c1_nonref_merge_policy (minT maxT : Nat) (chrom : String) (a : GenomeAlignment)
    (tes : List NonRefTE) (insertion : NonRefTE) (hlast : tes.getLast? = some insertion) :
    (a.upstream = true → nonRefUpOrientation a = insertion.orientation →
      (((nonRefProcess minT maxT chrom tes a).length = tes.length) ↔
        (a.get_boundary_nt = insertion.upstream_pos ∨
          (insertion.downstream_pos + minT ≤ a.get_boundary_nt ∧
            a.get_boundary_nt ≤ insertion.downstream_pos + maxT))))
    ∧ (a.upstream = true → nonRefUpOrientation a = insertion.orientation →
      a.get_boundary_nt = insertion.upstream_pos →
      nonRefProcess minT maxT chrom tes a =
        setLast tes { insertion with num_upstream_reads := insertion.num_upstream_reads + 1 })
    ∧ (a.upstream = true → nonRefUpOrientation a = insertion.orientation →
      a.get_boundary_nt ≠ insertion.upstream_pos →
      insertion.downstream_pos + minT ≤ a.get_boundary_nt →
      a.get_boundary_nt ≤ insertion.downstream_pos + maxT →
      nonRefProcess minT maxT chrom tes a =
        setLast tes
          { insertion with
            upstream_pos := a.get_boundary_nt
            num_upstream_reads := insertion.num_upstream_reads + 1 })
    ∧ (a.upstream = false → nonRefDownOrientation a = insertion.orientation →
      (((nonRefProcess minT maxT chrom tes a).length = tes.length) ↔
        a.get_boundary_nt = insertion.downstream_pos))
    ∧ (a.upstream = false → nonRefDownOrientation a = insertion.orientation →
      a.get_boundary_nt = insertion.downstream_pos →
      nonRefProcess minT maxT chrom tes a =
        setLast tes
          { insertion with num_downstream_reads := insertion.num_downstream_reads + 1 })
    ∧ (a.upstream = true → nonRefUpOrientation a ≠ insertion.orientation →
      nonRefProcess minT maxT chrom tes a = tes ++ [newNonRefUp a chrom])
    ∧ (a.upstream = false → nonRefDownOrientation a ≠ insertion.orientation →
      nonRefProcess minT maxT chrom tes a = tes ++ [newNonRefDown a chrom]) := by
  refine ⟨?_, ?_, ?_, ?_, ?_, ?_, ?_⟩
  · intro hup hor
    rw [nonRefProcess_up_reduce minT maxT chrom a tes insertion hup hlast hor]
    by_cases h1 : a.get_boundary_nt = insertion.upstream_pos
    · simp [h1, length_setLast]
    · by_cases h2 : insertion.downstream_pos + minT ≤ a.get_boundary_nt ∧
          a.get_boundary_nt ≤ insertion.downstream_pos + maxT
      · simp [h1, h2, length_setLast]
      · simp [h1, h2]
  · intro hup hor heq
    rw [nonRefProcess_up_reduce minT maxT chrom a tes insertion hup hlast hor]
    simp [heq]
  · intro hup hor hne hlo hhi
    rw [nonRefProcess_up_reduce minT maxT chrom a tes insertion hup hlast hor]
    simp [hne, hlo, hhi]
  · intro hdown hor
    rw [nonRefProcess_down_reduce minT maxT chrom a tes insertion hdown hlast hor]
    by_cases h1 : a.get_boundary_nt = insertion.downstream_pos
    · simp [h1, length_setLast]
    · simp [h1]
  · intro hdown hor heq
    rw [nonRefProcess_down_reduce minT maxT chrom a tes insertion hdown hlast hor]
    simp [heq]
  · intro hup hor
    exact nonRefProcess_up_mismatch minT maxT chrom a tes insertion hup hlast hor
  · intro hdown hor
    exact nonRefProcess_down_mismatch minT maxT chrom a tes insertion hdown hlast hor

/-- Witness for C1: a concrete upstream-side read at boundary 790 merges into the accumulator
(upstream 800, downstream 700) through the TSD window 700..800, updating the upstream position
and count; a concrete downstream-side read at 701 does not merge with downstream position 700
and starts a new accumulator. -/
theorem c1_nonref_merge_policy_witness :
    nonRefProcess 0 100 "2L" [⟨"roo", "2L", 800, 700, .PlusPlus, 1, 1⟩]
        ⟨"roo", 0, 0, true, true, true, "2L", .MS ⟨41, 10, 750⟩⟩ =
      [⟨"roo", "2L", 790, 700, .PlusPlus, 2, 1⟩]
    ∧ nonRefProcess 0 100 "2L" [⟨"roo", "2L", 800, 700, .PlusPlus, 1, 1⟩]
        ⟨"roo", 0, 0, false, false, true, "2L", .SM ⟨10, 41, 701⟩⟩ =
      [⟨"roo", "2L", 800, 700, .PlusPlus, 1, 1⟩,
        ⟨"roo", "2L", U64SENTINEL, 701, .PlusPlus, 0, 1⟩] := by
  constructor
  · exact (c1_nonref_merge_policy 0 100 "2L"
      ⟨"roo", 0, 0, true, true, true, "2L", .MS ⟨41, 10, 750⟩⟩
      [⟨"roo", "2L", 800, 700, .PlusPlus, 1, 1⟩] ⟨"roo", "2L", 800, 700, .PlusPlus, 1, 1⟩
      rfl).2.2.1 (by decide) (by decide) (by decide) (by decide) (by decide)
  · have h := (c1_nonref_merge_policy 0 100 "2L"
      ⟨"roo", 0, 0, false, false, true, "2L", .SM ⟨10, 41, 701⟩⟩
      [⟨"roo", "2L", 800, 700, .PlusPlus, 1, 1⟩] ⟨"roo", "2L", 800, 700, .PlusPlus, 1, 1⟩
      rfl).2.2.2.1 (by decide) (by decide)
    have h2 : ¬ ((nonRefProcess 0 100 "2L" [⟨"roo", "2L", 800, 700, .PlusPlus, 1, 1⟩]
        ⟨"roo", 0, 0, false, false, true, "2L", .SM ⟨10, 41, 701⟩⟩).length =
        ([⟨"roo", "2L", 800, 700, .PlusPlus, 1, 1⟩] : List NonRefTE).length) := by
      intro hc
      exact absurd (h.mp hc) (by decide)
    decide

/-- Claim C2: in get_ref_tes, a downstream-side read whose orientation matches the current
accumulator is merged iff its position exactly equals the accumulator's downstream_pos or lies
in the closed interval from upstream_pos + trunc(min_te_length * L) to
upstream_pos + trunc(max_te_length * L), L being the transposon's known length and the
fractional multipliers being truncated toward zero; an upstream-side read merges only on an
exact upstream_pos match. -/
theorem c2_ref_merge_policy (minTe maxTe : ℚ) (L : Nat) (chrom : String) (a : GenomeAlignment)
    (tes : List RefTE) (insertion : RefTE) (hlast : tes.getLast? = some insertion)
    (h0min : 0 ≤ minTe * (L : ℚ)) (h0max : 0 ≤ maxTe * (L : ℚ))
    (hbmin : ⌊minTe * (L : ℚ)⌋ ≤ 2 ^ 64 - 1) (hbmax : ⌊maxTe * (L : ℚ)⌋ ≤ 2 ^ 64 - 1) :
    (a.upstream = false → refOrientation a = insertion.orientation →
      (((refProcess minTe maxTe (L : ℚ) chrom tes a).length = tes.length) ↔
        (a.get_boundary_nt = insertion.downstream_pos ∨
          (insertion.upstream_pos + (⌊minTe * (L : ℚ)⌋).toNat ≤ a.get_boundary_nt ∧
            a.get_boundary_nt ≤ insertion.upstream_pos + (⌊maxTe * (L : ℚ)⌋).toNat))))
    ∧ (a.upstream = false → refOrientation a = insertion.orientation →
      a.get_boundary_nt ≠ insertion.downstream_pos →
      insertion.upstream_pos + (⌊minTe * (L : ℚ)⌋).toNat ≤ a.get_boundary_nt →
      a.get_boundary_nt ≤ insertion.upstream_pos + (⌊maxTe * (L : ℚ)⌋).toNat →
      refProcess minTe maxTe (L : ℚ) chrom tes a =
        setLast tes
          { insertion with
            downstream_pos := a.get_boundary_nt
            num_downstream_reads := insertion.num_downstream_reads + 1 })
    ∧ (a.upstream = true → refOrientation a = insertion.orientation →
      (((refProcess minTe maxTe (L : ℚ) chrom tes a).length = tes.length) ↔
        a.get_boundary_nt = insertion.upstream_pos)) := by
  have hfmin : f64AsU64 (minTe * (L : ℚ)) = (⌊minTe * (L : ℚ)⌋).toNat :=
    f64AsU64_eq (minTe * (L : ℚ)) h0min hbmin
  have hfmax : f64AsU64 (maxTe * (L : ℚ)) = (⌊maxTe * (L : ℚ)⌋).toNat :=
    f64AsU64_eq (maxTe * (L : ℚ)) h0max hbmax
  refine ⟨?_, ?_, ?_⟩
  · intro hdown hor
    rw [refProcess_down_reduce minTe maxTe (L : ℚ) chrom a tes insertion hdown hlast hor,
      hfmin, hfmax]
    by_cases h1 : a.get_boundary_nt = insertion.downstream_pos
    · simp [h1, length_setLast]
    · by_cases h2 : insertion.upstream_pos + (⌊minTe * (L : ℚ)⌋).toNat ≤ a.get_boundary_nt ∧
          a.get_boundary_nt ≤ insertion.upstream_pos + (⌊maxTe * (L : ℚ)⌋).toNat
      · simp [h1, h2, length_setLast]
      · simp [h1, h2]
  · intro hdown hor hne hlo hhi
    rw [refProcess_down_reduce minTe maxTe (L : ℚ) chrom a tes insertion hdown hlast hor,
      hfmin, hfmax]
    simp [hne, hlo, hhi]
  · intro hup hor
    rw [refProcess_up_reduce minTe maxTe (L : ℚ) chrom a tes insertion hup hlast hor]
    by_cases h1 : a.get_boundary_nt = insertion.upstream_pos
    · simp [h1, length_setLast]
    · simp [h1]

/-- Witness for C2: with multipliers 1/10 and 3/2 and known length 150, a downstream-side read
at position 1015 = 1000 + trunc(0.1 * 150) merges into the accumulator with upstream position
1000 (left endpoint of the closed interval), setting its downstream position. -/
theorem c2_ref_merge_policy_witness :
    refProcess (1 / 10) (3 / 2) ((150 : Nat) : ℚ) "2L"
        [⟨"roo", "2L", 1000, U64SENTINEL, .PlusPlus, 1, 0⟩]
        ⟨"roo", 140, 10, false, false, true, "2L", .M ⟨10, 140, false, true, 876⟩⟩ =
      [⟨"roo", "2L", 1000, 1015, .PlusPlus, 1, 1⟩] := by
  have hmin15 : (⌊(1 / 10 : ℚ) * ((150 : Nat) : ℚ)⌋).toNat = 15 := by
    norm_num
    rfl
  have hmax225 : (⌊(3 / 2 : ℚ) * ((150 : Nat) : ℚ)⌋).toNat = 225 := by
    norm_num
    rfl
  have h := (c2_ref_merge_policy (1 / 10) (3 / 2) 150 "2L"
      ⟨"roo", 140, 10, false, false, true, "2L", .M ⟨10, 140, false, true, 876⟩⟩
      [⟨"roo", "2L", 1000, U64SENTINEL, .PlusPlus, 1, 0⟩]
      ⟨"roo", "2L", 1000, U64SENTINEL, .PlusPlus, 1, 0⟩ rfl
      (by norm_num) (by norm_num) (by norm_num) (by norm_num)).2.1
      (by decide) (by decide) (by decide) (by rw [hmin15]; decide) (by rw [hmax225]; decide)
  exact h

/-- Claim C10 (implicit): the merge decision never inspects the transposon name; a read whose
name differs from the last accumulator's name but whose orientation matches and whose boundary
satisfies the positional merge condition is merged into that accumulator, and the accumulator
keeps the earlier transposon's name (in both the non-reference and the reference assembly). -/
theorem c10_merge_ignores_transposon_name (minT maxT : Nat) (minTe maxTe curL : ℚ)
    (chrom : String) (a b : GenomeAlignment) (tesN : List NonRefTE) (insN : NonRefTE)
    (tesR : List RefTE) (insR : RefTE)
    (hlastN : tesN.getLast? = some insN) (hlastR : tesR.getLast? = some insR) :
    (a.upstream = true → nonRefUpOrientation a = insN.orientation → a.te_name ≠ insN.name →
      (a.get_boundary_nt = insN.upstream_pos ∨
        (a.get_boundary_nt ≠ insN.upstream_pos ∧
          insN.downstream_pos + minT ≤ a.get_boundary_nt ∧
          a.get_boundary_nt ≤ insN.downstream_pos + maxT)) →
      ((nonRefProcess minT maxT chrom tesN a).length = tesN.length ∧
        ∀ merged, (nonRefProcess minT maxT chrom tesN a).getLast? = some merged →
          merged.name = insN.name ∧
          merged.num_upstream_reads = insN.num_upstream_reads + 1))
    ∧ (b.upstream = false → refOrientation b = insR.orientation → b.te_name ≠ insR.name →
      (b.get_boundary_nt = insR.downstream_pos ∨
        (b.get_boundary_nt ≠ insR.downstream_pos ∧
          insR.upstream_pos + f64AsU64 (minTe * curL) ≤ b.get_boundary_nt ∧
          b.get_boundary_nt ≤ insR.upstream_pos + f64AsU64 (maxTe * curL))) →
      ((refProcess minTe maxTe curL chrom tesR b).length = tesR.length ∧
        ∀ merged, (refProcess minTe maxTe curL chrom tesR b).getLast? = some merged →
          merged.name = insR.name ∧
          merged.num_downstream_reads = insR.num_downstream_reads + 1)) := by
  have hneN := ne_nil_of_getLast? hlastN
  have hneR := ne_nil_of_getLast? hlastR
  constructor
  · intro hup hor _ hcond
    rcases hcond with heq | ⟨hne, hlo, hhi⟩
    · rw [nonRefProcess_up_reduce minT maxT chrom a tesN insN hup hlastN hor, if_pos heq]
      refine ⟨length_setLast tesN _, fun merged hm => ?_⟩
      rw [getLast?_setLast tesN _ hneN] at hm
      cases hm
      exact ⟨rfl, rfl⟩
    · rw [nonRefProcess_up_reduce minT maxT chrom a tesN insN hup hlastN hor, if_neg hne,
        if_pos ⟨hlo, hhi⟩]
      refine ⟨length_setLast tesN _, fun merged hm => ?_⟩
      rw [getLast?_setLast tesN _ hneN] at hm
      cases hm
      exact ⟨rfl, rfl⟩
  · intro hdown hor _ hcond
    rcases hcond with heq | ⟨hne, hlo, hhi⟩
    · rw [refProcess_down_reduce minTe maxTe curL chrom b tesR insR hdown hlastR hor,
        if_pos heq]
      refine ⟨length_setLast tesR _, fun merged hm => ?_⟩
      rw [getLast?_setLast tesR _ hneR] at hm
      cases hm
      exact ⟨rfl, rfl⟩
    · rw [refProcess_down_reduce minTe maxTe curL chrom b tesR insR hdown hlastR hor,
        if_neg hne, if_pos ⟨hlo, hhi⟩]
      refine ⟨length_setLast tesR _, fun merged hm => ?_⟩
      rw [getLast?_setLast tesR _ hneR] at hm
      cases hm
      exact ⟨rfl, rfl⟩

/-- Witness for C10: a read of transposon zoo whose boundary 800 equals the upstream position
of the last accumulator, which belongs to transposon aroo, is merged and the accumulator keeps
the name aroo. -/
theorem c10_merge_ignores_transposon_name_witness :
    (nonRefProcess 0 100 "2L" [⟨"aroo", "2L", 800, 700, .PlusPlus, 1, 1⟩]
        ⟨"zoo", 0, 0, true, true, true, "2L", .MS ⟨41, 10, 760⟩⟩).length = 1
    ∧ (refProcess (1 / 10) (3 / 2) 150 "2L" [⟨"aroo", "2L", 1000, 2000, .PlusPlus, 1, 1⟩]
        ⟨"zoo", 140, 10, false, false, true, "2L", .M ⟨10, 140, false, true, 1861⟩⟩).length
      = 1 := by
  constructor
  · exact ((c10_merge_ignores_transposon_name 0 100 (1 / 10) (3 / 2) 150 "2L"
      ⟨"zoo", 0, 0, true, true, true, "2L", .MS ⟨41, 10, 760⟩⟩
      ⟨"zoo", 140, 10, false, false, true, "2L", .M ⟨10, 140, false, true, 1861⟩⟩
      [⟨"aroo", "2L", 800, 700, .PlusPlus, 1, 1⟩] ⟨"aroo", "2L", 800, 700, .PlusPlus, 1, 1⟩
      [⟨"aroo", "2L", 1000, 2000, .PlusPlus, 1, 1⟩]
      ⟨"aroo", "2L", 1000, 2000, .PlusPlus, 1, 1⟩ rfl rfl).1
      (by decide) (by decide) (by decide) (Or.inl (by decide))).1
  · exact ((c10_merge_ignores_transposon_name 0 100 (1 / 10) (3 / 2) 150 "2L"
      ⟨"zoo", 0, 0, true, true, true, "2L", .MS ⟨41, 10, 760⟩⟩
      ⟨"zoo", 140, 10, false, false, true, "2L", .M ⟨10, 140, false, true, 1861⟩⟩
      [⟨"aroo", "2L", 800, 700, .PlusPlus, 1, 1⟩] ⟨"aroo", "2L", 800, 700, .PlusPlus, 1, 1⟩
      [⟨"aroo", "2L", 1000, 2000, .PlusPlus, 1, 1⟩]
      ⟨"aroo", "2L", 1000, 2000, .PlusPlus, 1, 1⟩ rfl rfl).2
      (by decide) (by decide) (by decide) (Or.inl (by decide))).1

/-- Claim C3: at end of assembly, both get_non_ref_tes and get_ref_tes exclude every
accumulated insertion with zero upstream or zero downstream reads, and return the survivors
(exactly the two-sided accumulated insertions, as a permutation of the filtered accumulator
list) sorted in non-decreasing order of upstream_pos. -/
theorem c3_end_filter_and_sort (minT maxT : Nat) (chrom : String)
    (l : List GenomeAlignment) (minTe maxTe : ℚ) (lengths : String → Option Nat)
    (vec : List (List (List GenomeAlignment))) :
    (List.Sorted nonRefUpstreamLe (get_non_ref_tes minT maxT chrom l)
      ∧ (∀ te ∈ get_non_ref_tes minT maxT chrom l,
          0 < te.num_upstream_reads ∧ 0 < te.num_downstream_reads)
      ∧ (get_non_ref_tes minT maxT chrom l).Perm
          ((l.foldl (nonRefProcess minT maxT chrom) []).filter
            (fun i => 0 < i.num_upstream_reads && 0 < i.num_downstream_reads)))
    ∧ (∀ res, get_ref_tes minTe maxTe lengths chrom vec = some res →
        List.Sorted refUpstreamLe res
        ∧ (∀ te ∈ res, 0 < te.num_upstream_reads ∧ 0 < te.num_downstream_reads)
        ∧ ∀ acc, refAssemble minTe maxTe lengths chrom vec [] = some acc →
            res.Perm (acc.filter
              (fun i => 0 < i.num_upstream_reads && 0 < i.num_downstream_reads))) := by
  constructor
  · refine ⟨List.sorted_insertionSort nonRefUpstreamLe _, ?_, ?_⟩
    · intro te hte
      have hmem := (List.perm_insertionSort nonRefUpstreamLe _).mem_iff.mp hte
      have hp := (List.mem_filter.mp hmem).2
      simpa using hp
    · exact List.perm_insertionSort _ _
  · intro res hres
    cases hacc : refAssemble minTe maxTe lengths chrom vec [] with
    | none =>
      rw [get_ref_tes, hacc] at hres
      cases hres
    | some acc =>
      rw [get_ref_tes, hacc] at hres
      have hres2 : List.insertionSort refUpstreamLe
          (acc.filter (fun i => 0 < i.num_upstream_reads && 0 < i.num_downstream_reads)) =
          res := by
        cases hres
        rfl
      refine ⟨?_, ?_, ?_⟩
      · rw [← hres2]
        exact List.sorted_insertionSort refUpstreamLe _
      · intro te hte
        rw [← hres2] at hte
        have hmem := (List.perm_insertionSort refUpstreamLe _).mem_iff.mp hte
        have hp := (List.mem_filter.mp hmem).2
        simpa using hp
      · intro acc2 hacc2
        have h2 : acc = acc2 := Option.some.inj hacc2
        subst h2
        rw [← hres2]
        exact List.perm_insertionSort _ _

/-- Witness for C3: a concrete non-reference stream (downstream read at 700, upstream read at
800 merging through the TSD window) yields a sorted output, and a concrete reference stream
yields a sorted output through get_ref_tes. -/
theorem c3_end_filter_and_sort_witness :
    List.Sorted nonRefUpstreamLe (get_non_ref_tes 0 100 "2L"
      [⟨"roo", 0, 0, false, false, true, "2L", .SM ⟨10, 41, 700⟩⟩,
        ⟨"roo", 0, 0, true, true, true, "2L", .MS ⟨41, 10, 760⟩⟩])
    ∧ List.Sorted refUpstreamLe
        [⟨"roo", "2L", U64SENTINEL, 1015, .PlusPlus, 1, 1⟩] := by
  constructor
  · exact (c3_end_filter_and_sort 0 100 "2L"
      [⟨"roo", 0, 0, false, false, true, "2L", .SM ⟨10, 41, 700⟩⟩,
        ⟨"roo", 0, 0, true, true, true, "2L", .MS ⟨41, 10, 760⟩⟩]
      (1 / 10) (3 / 2) (fun n => if n = "roo" then some 150 else none) []).1.1
  · exact ((c3_end_filter_and_sort 0 100 "2L" [] (1 / 10) (3 / 2)
      (fun n => if n = "roo" then some 150 else none)
      [[[⟨"roo", 140, 10, false, false, true, "2L", .M ⟨10, 140, false, true, 876⟩⟩],
        [⟨"roo", 140, 10, true, true, true, "2L",
          .M ⟨10, 140, true, true, U64SENTINEL - 10⟩⟩]]]).2
      [⟨"roo", "2L", U64SENTINEL, 1015, .PlusPlus, 1, 1⟩] rfl).1

/-- Claim C5: the TE-side builder accepts a mapped record (with a transposon name known to the
length table) iff its match string classifies as SM with first matching base 1, or as MS with
last matching base pos + m - 1 equal to the transposon's known length; every other mapped
record is rejected, and every accepted alignment has is_sm equal to is_start, with SM implying
start and MS implying end. -/
theorem c5_te_builder_accept_iff (r : TeRecord) (table : String → Option Nat) (L : Nat)
    (hm : sam_is_mapped r.flag = true) (hknown : table r.rname = some L) :
    (exceptIsOk (TeAlignment.create r table) = true ↔
      ((∃ p, splitTwoRuns 'S' 'M' r.cigar = some p) ∧ r.pos = 1) ∨
      (∃ mv sv, splitTwoRuns 'M' 'S' r.cigar = some (mv, sv) ∧ r.pos + mv - 1 = L))
    ∧ (∀ a, TeAlignment.create r table = .ok a →
      (a.is_sm = a.is_start
        ∧ ((∃ p, splitTwoRuns 'S' 'M' r.cigar = some p) → a.is_sm = true ∧ a.is_start = true)
        ∧ (splitTwoRuns 'S' 'M' r.cigar = none →
            a.is_sm = false ∧ a.is_start = false))) := by
  have hcr : TeAlignment.create r table =
      (match splitTwoRuns 'S' 'M' r.cigar with
       | some (sv, mv) =>
         if r.pos = 1 then .ok ⟨r.qname, r.rname, mv, sv, true, true, r.seq⟩
         else .error "SM read does not align to start of transposon"
       | none =>
         match splitTwoRuns 'M' 'S' r.cigar with
         | some (mv, sv) =>
           if r.pos + mv - 1 = L then .ok ⟨r.qname, r.rname, mv, sv, false, false, r.seq⟩
           else .error "MS read does not align to end of transposon"
         | none => .error "CIGAR string is not SM or MS") := by
    cases hSM : splitTwoRuns 'S' 'M' r.cigar with
    | some p =>
      obtain ⟨sv, mv⟩ := p
      by_cases hpos : r.pos = 1 <;>
        simp [TeAlignment.create, validate_cigar_string, SplitReadTE.parse, hm, hknown, hSM,
          hpos, SMAlignment.get_first_m, SplitReadTE.m, SplitReadTE.s]
    | none =>
      cases hMS : splitTwoRuns 'M' 'S' r.cigar with
      | some p =>
        obtain ⟨mv, sv⟩ := p
        by_cases hlen : r.pos + mv - 1 = L <;>
          simp [TeAlignment.create, validate_cigar_string, SplitReadTE.parse, hm, hknown, hSM,
            hMS, hlen, MSAlignment.get_last_m, SplitReadTE.m, SplitReadTE.s]
      | none =>
        simp [TeAlignment.create, validate_cigar_string, SplitReadTE.parse, hm, hknown, hSM,
          hMS]
  cases hSM : splitTwoRuns 'S' 'M' r.cigar with
  | some p =>
    obtain ⟨sv, mv⟩ := p
    have hMS : splitTwoRuns 'M' 'S' r.cigar = none :=
      splitTwoRuns_first_char hSM (by decide)
    by_cases hpos : r.pos = 1
    · have hc2 : TeAlignment.create r table =
          .ok ⟨r.qname, r.rname, mv, sv, true, true, r.seq⟩ := by
        rw [hcr, hSM]
        simp [hpos]
      constructor
      · constructor
        · intro _
          exact Or.inl ⟨⟨(sv, mv), rfl⟩, hpos⟩
        · intro _
          rw [hc2]
          rfl
      · intro a ha
        rw [hc2] at ha
        injection ha with ha2
        subst ha2
        exact ⟨rfl, fun _ => ⟨rfl, rfl⟩, fun hc => Option.noConfusion hc⟩
    · have hc2 : TeAlignment.create r table =
          .error "SM read does not align to start of transposon" := by
        rw [hcr, hSM]
        simp [hpos]
      constructor
      · rw [hc2]
        constructor
        · intro hfalse
          simp [exceptIsOk] at hfalse
        · rintro (⟨⟨p2, hp2⟩, hpos2⟩ | ⟨mv2, sv2, hp2, hlen2⟩)
          · exact absurd hpos2 hpos
          · rw [hMS] at hp2
            cases hp2
      · intro a ha
        rw [hc2] at ha
        cases ha
  | none =>
    cases hMS : splitTwoRuns 'M' 'S' r.cigar with
    | some p =>
      obtain ⟨mv, sv⟩ := p
      by_cases hlen : r.pos + mv - 1 = L
      · have hc2 : TeAlignment.create r table =
            .ok ⟨r.qname, r.rname, mv, sv, false, false, r.seq⟩ := by
          rw [hcr, hSM, hMS]
          simp [hlen]
        constructor
        · constructor
          · intro _
            exact Or.inr ⟨mv, sv, rfl, hlen⟩
          · intro _
            rw [hc2]
            rfl
        · intro a ha
          rw [hc2] at ha
          injection ha with ha2
          subst ha2
          refine ⟨rfl, fun hc => ?_, fun _ => ⟨rfl, rfl⟩⟩
          obtain ⟨p2, hp2⟩ := hc
          exact Option.noConfusion hp2
      · have hc2 : TeAlignment.create r table =
            .error "MS read does not align to end of transposon" := by
          rw [hcr, hSM, hMS]
          simp [hlen]
        constructor
        · rw [hc2]
          constructor
          · intro hfalse
            simp [exceptIsOk] at hfalse
          · rintro (⟨⟨p2, hp2⟩, _⟩ | ⟨mv2, sv2, hp2, hlen2⟩)
            · exact Option.noConfusion hp2
            · injection hp2 with hp3
              injection hp3 with hva hvb
              subst hva
              exact absurd hlen2 hlen
        · intro a ha
          rw [hc2] at ha
          cases ha
    | none =>
      have hc2 : TeAlignment.create r table = .error "CIGAR string is not SM or MS" := by
        rw [hcr, hSM, hMS]
      constructor
      · rw [hc2]
        constructor
        · intro hfalse
          simp [exceptIsOk] at hfalse
        · rintro (⟨⟨p2, hp2⟩, _⟩ | ⟨mv2, sv2, hp2, _⟩)
          · exact Option.noConfusion hp2
          · exact Option.noConfusion hp2
      · intro a ha
        rw [hc2] at ha
        cases ha

/-- Witness for C5: the record 119S31M at transposon position 1 is accepted (SM anchored at the
transposon start), and 144M6S at position 7 with known length 150 is accepted (last matching
base 7 + 144 - 1 = 150). -/
theorem c5_te_builder_accept_iff_witness :
    exceptIsOk (TeAlignment.create ⟨"q1", 0, "roo", 1, "119S31M", "A"⟩
      (fun n => if n = "roo" then some 150 else none)) = true
    ∧ exceptIsOk (TeAlignment.create ⟨"q2", 0, "roo", 7, "144M6S", "A"⟩
      (fun n => if n = "roo" then some 150 else none)) = true := by
  constructor
  · exact (c5_te_builder_accept_iff ⟨"q1", 0, "roo", 1, "119S31M", "A"⟩
      (fun n => if n = "roo" then some 150 else none) 150 (by decide) (by decide)).1.mpr
      (Or.inl ⟨⟨(119, 31), by decide⟩, rfl⟩)
  · exact (c5_te_builder_accept_iff ⟨"q2", 0, "roo", 7, "144M6S", "A"⟩
      (fun n => if n = "roo" then some 150 else none) 150 (by decide) (by decide)).1.mpr
      (Or.inr ⟨144, 6, by decide, by decide⟩)

/-- Claim C7: a match-description string of the form aSbM yields SM with s = a, m = b (and the
SM boundary is the record position); aMbS yields MS with m = a, s = b; on the genome side the
hard-clip forms aHbM and aMbH classify exactly like the soft-clip forms and a pure aM string
yields an M shape; a string matching none of the five patterns is rejected; and the TE-side
classifier accepts only the two soft-clip forms, rejecting hard-clip and pure-match strings. -/
theorem c7_classification (pos old_m old_s : Nat) (b1 b2 : Bool) (d1 d2 : List Char)
    (h1 : d1 ≠ []) (h1d : ∀ c ∈ d1, c.isDigit = true)
    (h2 : d2 ≠ []) (h2d : ∀ c ∈ d2, c.isDigit = true) :
    (SplitReadTE.parse (String.mk (d1 ++ 'S' :: (d2 ++ ['M']))) pos =
        .ok (.SM ⟨digitsVal d1, digitsVal d2, pos⟩)
      ∧ SMAlignment.get_first_m ⟨digitsVal d1, digitsVal d2, pos⟩ = pos)
    ∧ SplitReadTE.parse (String.mk (d1 ++ 'M' :: (d2 ++ ['S']))) pos =
        .ok (.MS ⟨digitsVal d1, digitsVal d2, pos⟩)
    ∧ SplitReadGenome.parse (String.mk (d1 ++ 'H' :: (d2 ++ ['M']))) old_m old_s b1 b2 pos =
        .ok (.SM ⟨digitsVal d1, digitsVal d2, pos⟩)
    ∧ SplitReadGenome.parse (String.mk (d1 ++ 'S' :: (d2 ++ ['M']))) old_m old_s b1 b2 pos =
        .ok (.SM ⟨digitsVal d1, digitsVal d2, pos⟩)
    ∧ SplitReadGenome.parse (String.mk (d1 ++ 'M' :: (d2 ++ ['H']))) old_m old_s b1 b2 pos =
        .ok (.MS ⟨digitsVal d1, digitsVal d2, pos⟩)
    ∧ SplitReadGenome.parse (String.mk (d1 ++ 'M' :: (d2 ++ ['S']))) old_m old_s b1 b2 pos =
        .ok (.MS ⟨digitsVal d1, digitsVal d2, pos⟩)
    ∧ SplitReadGenome.parse (String.mk (d1 ++ ['M'])) old_m old_s b1 b2 pos =
        .ok (.M ⟨old_s, old_m, b1, b2, pos⟩)
    ∧ (∀ s : String, splitTwoRuns 'H' 'M' s = none → splitTwoRuns 'M' 'H' s = none →
        splitTwoRuns 'S' 'M' s = none → splitTwoRuns 'M' 'S' s = none →
        pureMatchRun s = false →
        SplitReadGenome.parse s old_m old_s b1 b2 pos =
          .error "CIGAR string is not HM, MH, SM, MS, or M")
    ∧ SplitReadTE.parse (String.mk (d1 ++ 'H' :: (d2 ++ ['M']))) pos =
        .error "CIGAR string is not SM or MS"
    ∧ SplitReadTE.parse (String.mk (d1 ++ 'M' :: (d2 ++ ['H']))) pos =
        .error "CIGAR string is not SM or MS"
    ∧ SplitReadTE.parse (String.mk (d1 ++ ['M'])) pos =
        .error "CIGAR string is not SM or MS" := by
  have sf_sm := splitTwoRuns_ok 'S' 'M' d1 d2 (by decide) (by decide) h1 h1d h2 h2d
  have mf_ms := splitTwoRuns_ok 'M' 'S' d1 d2 (by decide) (by decide) h1 h1d h2 h2d
  have hf_hm := splitTwoRuns_ok 'H' 'M' d1 d2 (by decide) (by decide) h1 h1d h2 h2d
  have gf_mh := splitTwoRuns_ok 'M' 'H' d1 d2 (by decide) (by decide) h1 h1d h2 h2d
  have sf_hm := splitTwoRuns_head_ne 'H' 'M' 'S' d1 (d2 ++ ['M']) (by decide) (by decide) h1d
  have sf_mh := splitTwoRuns_head_ne 'M' 'H' 'S' d1 (d2 ++ ['M']) (by decide) (by decide) h1d
  have sf_ms := splitTwoRuns_head_ne 'M' 'S' 'S' d1 (d2 ++ ['M']) (by decide) (by decide) h1d
  have mf_hm := splitTwoRuns_head_ne 'H' 'M' 'M' d1 (d2 ++ ['S']) (by decide) (by decide) h1d
  have mf_mh := splitTwoRuns_tail_ne 'M' 'H' 'S' d1 d2 (by decide) (by decide) (by decide)
    h1d h2d
  have mf_sm := splitTwoRuns_head_ne 'S' 'M' 'M' d1 (d2 ++ ['S']) (by decide) (by decide) h1d
  have hf_sm := splitTwoRuns_head_ne 'S' 'M' 'H' d1 (d2 ++ ['M']) (by decide) (by decide) h1d
  have hf_ms := splitTwoRuns_head_ne 'M' 'S' 'H' d1 (d2 ++ ['M']) (by decide) (by decide) h1d
  have gf_hm := splitTwoRuns_head_ne 'H' 'M' 'M' d1 (d2 ++ ['H']) (by decide) (by decide) h1d
  have gf_sm := splitTwoRuns_head_ne 'S' 'M' 'M' d1 (d2 ++ ['H']) (by decide) (by decide) h1d
  have gf_ms := splitTwoRuns_tail_ne 'M' 'S' 'H' d1 d2 (by decide) (by decide) (by decide)
    h1d h2d
  have pf_hm := splitTwoRuns_head_ne 'H' 'M' 'M' d1 [] (by decide) (by decide) h1d
  have pf_sm := splitTwoRuns_head_ne 'S' 'M' 'M' d1 [] (by decide) (by decide) h1d
  have pf_mh := splitTwoRuns_short 'M' 'H' d1 (by decide) h1d
  have pf_ms := splitTwoRuns_short 'M' 'S' d1 (by decide) h1d
  have pf_pure := pureMatchRun_true d1 h1 h1d
  refine ⟨⟨?_, rfl⟩, ?_, ?_, ?_, ?_, ?_, ?_, ?_, ?_, ?_, ?_⟩
  · simp [SplitReadTE.parse, sf_sm]
  · simp [SplitReadTE.parse, mf_sm, mf_ms]
  · simp [SplitReadGenome.parse, hf_hm]
  · simp [SplitReadGenome.parse, sf_hm, sf_mh, sf_sm]
  · simp [SplitReadGenome.parse, gf_hm, gf_mh]
  · simp [SplitReadGenome.parse, mf_hm, mf_mh, mf_sm, mf_ms]
  · simp [SplitReadGenome.parse, pf_hm, pf_mh, pf_sm, pf_ms, pf_pure]
  · intro s n1 n2 n3 n4 n5
    simp [SplitReadGenome.parse, n1, n2, n3, n4, n5]
  · simp [SplitReadTE.parse, hf_sm, hf_ms]
  · simp [SplitReadTE.parse, gf_sm, gf_ms]
  · simp [SplitReadTE.parse, pf_sm, pf_ms]

/-- Witness for C7 on the concrete strings 119S31M (TE side, position 1) and 119H31M (genome
side, position 5). -/
theorem c7_classification_witness :
    SplitReadTE.parse (String.mk (['1', '1', '9'] ++ 'S' :: (['3', '1'] ++ ['M']))) 1 =
      .ok (.SM ⟨119, 31, 1⟩)
    ∧ SplitReadGenome.parse (String.mk (['1', '1', '9'] ++ 'H' :: (['3', '1'] ++ ['M'])))
        140 10 true true 5 = .ok (.SM ⟨119, 31, 5⟩) := by
  constructor
  · exact (c7_classification 1 140 10 true true ['1', '1', '9'] ['3', '1']
      (by decide) (by decide) (by decide) (by decide)).1.1
  · exact (c7_classification 5 140 10 true true ['1', '1', '9'] ['3', '1']
      (by decide) (by decide) (by decide) (by decide)).2.2.1

/-- Counterexample for C8: in the Result-based TE-side builder (te_alignment.rs) driven by the
sx selection pass (select_reads.rs), a mapped record whose transposon name is absent from the
length table is skipped and the pass continues with later records, contradicting the claim
that the whole selection pass aborts. -/
theorem c8_counterexample_skip_and_continue :
    sam_is_mapped (0 : Nat) = true
    ∧ (fun n => if n = "roo" then some 150 else none) "ghostTE" = none
    ∧ sx_select_pass (fun n => if n = "roo" then some 150 else none)
        [⟨"q1", 0, "ghostTE", 1, "119S31M", "A"⟩, ⟨"q2", 0, "roo", 1, "119S31M", "A"⟩] =
      [⟨"q2", "roo", 31, 119, true, true, "A"⟩] := by
  refine ⟨by decide, by decide, by decide⟩

/-- Claim C8 (amended): a mapped record with a transposon name missing from the length table
aborts the whole selection pass in the preprocess builder wired into the stanex pass (with a
diagnostic), while in the Result-based builder (te_alignment.rs) it is a per-record
recoverable error naming the transposon, which the sx selection pass skips before
continuing. -/
theorem c8_unknown_transposon_policy (r : TeRecord) (table : String → Option Nat)
    (hm : sam_is_mapped r.flag = true) (hu : table r.rname = none) :
    TeAlignment.createPre r table = .error "unable to find transposon in transposon list"
    ∧ (∀ rest, preprocess_select_pass table (r :: rest) =
        .error "unable to find transposon in transposon list")
    ∧ TeAlignment.create r table =
        .error ("unable to find transposon " ++ r.rname ++ " in transposon list")
    ∧ (∀ rest, sx_select_pass table (r :: rest) = sx_select_pass table rest) := by
  have h1 : TeAlignment.createPre r table =
      .error "unable to find transposon in transposon list" := by
    simp [TeAlignment.createPre, hm, hu]
  have h3 : TeAlignment.create r table =
      .error ("unable to find transposon " ++ r.rname ++ " in transposon list") := by
    simp [TeAlignment.create, validate_cigar_string, hm, hu]
  refine ⟨h1, fun rest => ?_, h3, fun rest => ?_⟩
  · simp [preprocess_select_pass, h1]
  · simp [sx_select_pass, h3]

/-- Witness for C8 (amended): on a concrete stream whose first record names the unknown
transposon ghostTE, the preprocess pass aborts while the sx pass skips the record. -/
theorem c8_unknown_transposon_policy_witness :
    preprocess_select_pass (fun n => if n = "roo" then some 150 else none)
        [⟨"q1", 0, "ghostTE", 1, "119S31M", "A"⟩, ⟨"q2", 0, "roo", 1, "119S31M", "A"⟩] =
      .error "unable to find transposon in transposon list"
    ∧ sx_select_pass (fun n => if n = "roo" then some 150 else none)
        [⟨"q1", 0, "ghostTE", 1, "119S31M", "A"⟩] = [] := by
  constructor
  · exact (c8_unknown_transposon_policy ⟨"q1", 0, "ghostTE", 1, "119S31M", "A"⟩
      (fun n => if n = "roo" then some 150 else none) (by decide) (by decide)).2.1
      [⟨"q2", 0, "roo", 1, "119S31M", "A"⟩]
  · exact (c8_unknown_transposon_policy ⟨"q1", 0, "ghostTE", 1, "119S31M", "A"⟩
      (fun n => if n = "roo" then some 150 else none) (by decide) (by decide)).2.2.2 []

end StanX
